import Mathlib

/-!
Shallow embedding of the campus wallet ledger (tRPC `walletRouter` plus the
drizzle schema and zod input schemas).  Monetary amounts are integers in minor
units (cents); balances are `Int` so that negative balances are observable.
All rounding in fee computation models JavaScript `Math.round` on the products
the source computes (round half up on nonnegative inputs).
-/

namespace CairoWallet

/-- P2P transfer fee, `Math.max(100, Math.round(amount * 0.005))`:
0.5 percent with a minimum of 100 minor units (R1).
`(amount + 100) / 200` is round-half-up of `amount * 0.005` on naturals. -/
def transferFee (amount : Nat) : Nat :=
  max 100 ((amount + 100) / 200)

/-- Bill payment fee, `Math.max(200, Math.round(amount * 0.015))`:
1.5 percent with a minimum of 200 minor units (R2). -/
def billFee (amount : Nat) : Nat :=
  max 200 ((15 * amount + 500) / 1000)

/-- Wallet funding fee, `Math.round(amount * 0.015)`: 1.5 percent, no floor. -/
def depositFee (amount : Nat) : Nat :=
  (15 * amount + 500) / 1000

/-- Withdrawal fee: fixed 1500 minor units (R15). -/
def withdrawalFee : Nat := 1500

/-- Merchant payment fee, `Math.round(amount * (feePercentage / 100))` where the
stored `transactionFeePercentage` is a `decimal(5,2)`; `feeBp` is that
percentage in hundredths of a percent (basis points). -/
def merchantFee (amount feeBp : Nat) : Nat :=
  (amount * feeBp + 5000) / 10000

/-- The textual prefix class of a generated reference string
(`VH_...`, `TRF_...`, `MERCH_...`, `BILL_...`, `WDL_...`, `QR_...`).
The source builds references by template literals with these distinct
prefixes, so references of different operations can never collide; the
inductive tag models the prefix. -/
inductive RefKind
  | vh | trf | merch | bill | wdl | qr
  deriving DecidableEq, Repr

/-- A generated base reference: prefix class plus the
`${Date.now()}_${randomBytes}` suffix. -/
structure Ref where
  kind : RefKind
  suffix : String
  deriving DecidableEq, Repr

/-- A transaction reference: base reference plus the per-leg suffix
(`"_S"`, `"_R"`, `"_F"`, `"_M"`, or `""` for single-leg operations).
Models strings such as `` `${reference}_S` ``.  The `reference` column of
`walletTransactions` carries a global unique index. -/
structure TxnRef where
  base : Ref
  leg : String
  deriving DecidableEq, Repr

/-- Status column of `walletTransactions`: pending, processing, completed, failed. -/
inductive TxStatus
  | pending | processing | completed | failed
  deriving DecidableEq, Repr

/-- One row of `walletTransactions` (the fields the ledger logic reads or
writes; display-only columns are omitted).  `amount` is signed: positive for
credits, negative for debits. -/
structure Txn where
  reference : TxnRef
  type : String
  subType : String
  amount : Int
  fee : Int
  netAmount : Int
  balanceBefore : Int
  balanceAfter : Int
  status : TxStatus
  createdAt : Nat
  deriving DecidableEq, Repr

/-- One row of `walletHolds`: a reservation against available balance.
`released` models `releasedAt IS NOT NULL`. -/
structure Hold where
  reference : TxnRef
  amount : Int
  released : Bool
  deriving DecidableEq, Repr

/-- One row of `wallets` (the balance-relevant columns).  Defaults:
`dailyLimit = 500000`, `monthlyLimit = 2000000`. -/
structure Wallet where
  balance : Int
  availableBalance : Int
  dailyLimit : Int
  monthlyLimit : Int
  deriving DecidableEq, Repr

/-- The error taxonomy of the router's thrown `TRPCError`s, by failure site. -/
inductive LErr
  | notFound | unauthorized | insufficientBalance
  | limitDailyExceeded | limitMonthlyExceeded
  | badRequest | gatewayFailed | internalError
  deriving DecidableEq, Repr

/-- Whether the operation returned a result (no `TRPCError` thrown). -/
def exceptOk {α : Type} : Except LErr α → Bool
  | .ok _ => true
  | .error _ => false

/-- The daily/monthly "spent" total the `transfer` mutation computes
(part_000 lines 353-379): the SQL `sum(amount)` over this wallet's
transactions with `createdAt >= windowStart`, `status = 'completed'` and
`type = 'transfer'`.  Note this sums signed amounts and looks only at
type `'transfer'`. -/
def sumTransferAmounts (txns : List Txn) (windowStart : Nat) : Int :=
  ((txns.filter (fun t =>
      decide (windowStart ≤ t.createdAt ∧ t.status = .completed ∧
        t.type = "transfer"))).map (fun t => t.amount)).sum

/-- Modelled from the spec: the daily/monthly spent total as the spec's Limit
Policy describes it — the sum of completed debit transactions of the
spend-relevant kinds transfer, payment and withdrawal (fees and deposits
excluded) within the window, as a positive magnitude.  Written from the
spec's words only, for comparison against `sumTransferAmounts`. -/
def specSpentAmounts (txns : List Txn) (windowStart : Nat) : Int :=
  ((txns.filter (fun t =>
      decide (windowStart ≤ t.createdAt ∧ t.status = .completed ∧
        t.amount < 0 ∧
        (t.type = "transfer" ∨ t.type = "payment" ∨ t.type = "withdrawal")))).map
    (fun t => -t.amount)).sum

/-- Result of the `transfer` mutation when it commits (part_000 lines 312-557):
the two updated wallet rows and the three transaction legs inserted inside the
single `db.transaction`. -/
structure TransferOk where
  sender : Wallet
  recipient : Wallet
  senderLeg : Txn
  recipientLeg : Txn
  feeLeg : Txn
  fee : Nat
  deriving DecidableEq, Repr

/-- The `transfer` mutation (part_000 lines 312-557).  Checks in source
order: zod `transferSchema` (amount 10..500000), PIN compare (line 332),
available balance (line 341), daily then monthly limit over
`sumTransferAmounts` (lines 353-393), recipient resolution (lines 396-440,
collapsed into `recipFound`), self-transfer (line 421).  Fee
`max(100, round(amount * 0.005))` (line 443).  All balance updates, the three
legs, and the favorite-cache upsert (lines 527-546) run inside one
`db.transaction`; a failed upsert (`cacheOk = false`) throws inside that
transaction, rolling everything back. -/
def transfer (sender : Wallet) (senderTxns : List Txn) (recipient : Wallet)
    (amount : Nat) (pinOk recipFound recipSelf cacheOk : Bool)
    (sod som now : Nat) (suffix : String) : Except LErr TransferOk :=
  if ¬(10 ≤ amount ∧ amount ≤ 500000) then .error .badRequest
  else if ¬pinOk then .error .unauthorized
  else if (amount : Int) > sender.availableBalance then .error .insufficientBalance
  else if sumTransferAmounts senderTxns sod + amount > sender.dailyLimit then
    .error .limitDailyExceeded
  else if sumTransferAmounts senderTxns som + amount > sender.monthlyLimit then
    .error .limitMonthlyExceeded
  else if ¬recipFound then .error .notFound
  else if recipSelf then .error .badRequest
  else
    let fee := transferFee amount
    let netAmount : Int := (amount : Int) - fee
    let senderNewBalance := sender.balance - amount
    let recipientNewBalance := recipient.balance + netAmount
    if ¬cacheOk then .error .internalError
    else .ok
      { sender := { sender with
          balance := senderNewBalance
          availableBalance := sender.availableBalance - amount }
        recipient := { recipient with
          balance := recipientNewBalance
          availableBalance := recipient.availableBalance + netAmount }
        senderLeg :=
          { reference := ⟨⟨.trf, suffix⟩, "_S"⟩
            type := "transfer", subType := "p2p_send"
            amount := -(amount : Int), fee := fee
            netAmount := -(amount : Int)
            balanceBefore := sender.balance
            balanceAfter := senderNewBalance
            status := .completed, createdAt := now }
        recipientLeg :=
          { reference := ⟨⟨.trf, suffix⟩, "_R"⟩
            type := "transfer", subType := "p2p_receive"
            amount := netAmount, fee := 0
            netAmount := netAmount
            balanceBefore := recipient.balance
            balanceAfter := recipientNewBalance
            status := .completed, createdAt := now }
        feeLeg :=
          { reference := ⟨⟨.trf, suffix⟩, "_F"⟩
            type := "fee", subType := ""
            amount := -(fee : Int), fee := 0
            netAmount := -(fee : Int)
            balanceBefore := senderNewBalance
            balanceAfter := senderNewBalance
            status := .completed, createdAt := now }
        fee := fee }

/-- Result of the `fundWallet` mutation (part_000 lines 148-226):
whether the Paystack `transaction/initialize` call was reached, the pending
transaction row inserted, and the error if any. -/
structure FundAttempt where
  gatewayContacted : Bool
  pendingTxn : Option Txn
  err : Option LErr
  deriving DecidableEq, Repr

/-- The `fundWallet` mutation (part_000 lines 148-226).  The zod
`fundWalletSchema` (amount 100..10000000, part_002 lines 212-217) rejects the
input before the handler body runs; the handler re-checks `amount > 10000000`
(line 165); only then is Paystack contacted (line 176) and, on success, a
`pending` deposit row inserted with fee 1.5 percent (lines 201-219). -/
def fundWallet (w : Wallet) (amount : Nat) (gatewayOk : Bool)
    (paymentMethod suffix : String) (now : Nat) : FundAttempt :=
  if ¬(100 ≤ amount ∧ amount ≤ 10000000) then ⟨false, none, some .badRequest⟩
  else if 10000000 < amount then ⟨false, none, some .badRequest⟩
  else if ¬gatewayOk then ⟨true, none, some .internalError⟩
  else
    ⟨true,
     some { reference := ⟨⟨.vh, suffix⟩, ""⟩
            type := "deposit", subType := paymentMethod
            amount := (amount : Int), fee := depositFee amount
            netAmount := (amount : Int) - depositFee amount
            balanceBefore := w.balance, balanceAfter := w.balance
            status := .pending, createdAt := now },
     none⟩

/-- The `verifyFunding` mutation (part_000 lines 229-309) on a wallet and its
transaction list.  Looks the transaction up by reference (lines 232-243),
calls Paystack verify (line 246); on gateway failure marks the row failed and
throws (lines 248-262); on gateway success credits `netAmount` to balance and
available balance and marks the row completed (lines 274-301).  The handler
never consults the stored transaction's status, so it applies the credit even
when the row is already terminal.  Returns the updated wallet, the updated
transaction list, and the error if any. -/
def verifyFunding (w : Wallet) (txns : List Txn) (r : TxnRef)
    (gatewaySuccess : Bool) : Wallet × List Txn × Option LErr :=
  match txns.find? (fun t => decide (t.reference = r)) with
  | none => (w, txns, some .notFound)
  | some t0 =>
    if ¬gatewaySuccess then
      (w,
       txns.map (fun u => if u.reference = r then { u with status := .failed } else u),
       some .badRequest)
    else
      (⟨w.balance + t0.netAmount, w.availableBalance + t0.netAmount,
        w.dailyLimit, w.monthlyLimit⟩,
       txns.map (fun u =>
         if u.reference = r then
           { u with status := .completed
                    balanceBefore := w.balance
                    balanceAfter := w.balance + t0.netAmount }
         else u),
       none)

/-- Result of the `payBill` mutation when it commits (part_000 lines 731-895):
updated wallet, the hold list (unchanged: no hold is inserted anywhere in the
handler), the `processing` transaction row, fee and total. -/
structure BillPayOk where
  wallet : Wallet
  holds : List Hold
  txn : Txn
  fee : Nat
  total : Nat
  deriving DecidableEq, Repr

/-- The `payBill` mutation (part_000 lines 731-895).  Checks: zod
`billPaymentSchema` (amount at least 50), PIN (line 748), amount against
available balance (line 754), fee `max(200, round(amount * 0.015))`
(line 759), `amount + fee` against available balance (line 762).  The mock
provider outcome (`Math.random()`, line 773) is `providerOk`.  Inside one
`db.transaction`: balance and available balance are decremented by
`amount + fee` immediately (lines 777-787) and a `processing` transaction is
inserted (lines 812-832); on provider failure an error is thrown inside the
transaction (line 843), rolling everything back. -/
def payBill (w : Wallet) (holds : List Hold) (amount : Nat)
    (pinOk providerOk : Bool) (now : Nat) (suffix : String) :
    Except LErr BillPayOk :=
  if ¬(50 ≤ amount) then .error .badRequest
  else if ¬pinOk then .error .unauthorized
  else if (amount : Int) > w.availableBalance then .error .insufficientBalance
  else
    let fee := billFee amount
    let total := amount + fee
    if (total : Int) > w.availableBalance then .error .insufficientBalance
    else if ¬providerOk then .error .internalError
    else .ok
      { wallet := { w with
          balance := w.balance - total
          availableBalance := w.availableBalance - total }
        holds := holds
        txn :=
          { reference := ⟨⟨.bill, suffix⟩, ""⟩
            type := "bill_payment", subType := "electricity"
            amount := -(total : Int), fee := fee
            netAmount := -(total : Int)
            balanceBefore := w.balance
            balanceAfter := w.balance - total
            status := .processing, createdAt := now }
        fee := fee
        total := total }

/-- The bill settlement timer (part_000 lines 850-881): the `setTimeout`
callback only flips the bill and transaction rows to `completed` and attaches
provider metadata; it touches no `wallets` row and no balance column. -/
def settleBillTxn (t : Txn) : Txn :=
  { t with status := .completed }

/-- Result of the `withdraw` mutation (part_000 lines 898-1053): updated
wallet (available balance decremented, balance untouched), the inserted hold,
and the `processing` transaction row. -/
structure WithdrawOk where
  wallet : Wallet
  hold : Hold
  txn : Txn
  fee : Nat
  total : Nat
  deriving DecidableEq, Repr

/-- The `withdraw` mutation (part_000 lines 898-1053).  Checks: zod
`withdrawSchema` (amount 100..500000), PIN (line 915), amount against
available balance (line 921), bank account existence and verification
(lines 926-941), then fixed fee 1500 and `amount + fee` against available
balance (lines 944-952).  A hold for `amount + fee` is inserted
(lines 957-963), available balance is decremented (lines 966-973), and a
`processing` transaction with `balanceAfter = balanceBefore` is inserted
(lines 976-995); balance itself is untouched until the asynchronous
settlement. -/
def withdraw (w : Wallet) (amount : Nat) (pinOk bankFound bankVerified : Bool)
    (now : Nat) (suffix : String) : Except LErr WithdrawOk :=
  if ¬(100 ≤ amount ∧ amount ≤ 500000) then .error .badRequest
  else if ¬pinOk then .error .unauthorized
  else if (amount : Int) > w.availableBalance then .error .insufficientBalance
  else if ¬bankFound then .error .notFound
  else if ¬bankVerified then .error .badRequest
  else
    let fee := withdrawalFee
    let total := amount + fee
    if (total : Int) > w.availableBalance then .error .insufficientBalance
    else .ok
      { wallet := { w with availableBalance := w.availableBalance - total }
        hold := ⟨⟨⟨.wdl, suffix⟩, ""⟩, (total : Int), false⟩
        txn :=
          { reference := ⟨⟨.wdl, suffix⟩, ""⟩
            type := "withdrawal", subType := "bank_transfer"
            amount := -(total : Int), fee := fee
            netAmount := -(total : Int)
            balanceBefore := w.balance
            balanceAfter := w.balance
            status := .processing, createdAt := now }
        fee := fee
        total := total }

/-! ### A per-wallet operation machine

For invariants over sequences of operations, the state of one wallet is
tracked together with its transaction log, its holds, and the data captured
by the in-process settlement timers.  Each operation below is the effect of
one router mutation on one wallet row (multi-wallet mutations act on each
involved wallet independently inside one transaction, so each side is an
operation here).  Insertions whose reference collides with an existing row
model the unique index on `reference`: the insert throws, the enclosing unit
of work rolls back and the state is unchanged. -/

/-- The data a withdrawal's `setTimeout` settlement closure captures
(part_000 lines 998-1039): the reference, the wallet balance read at request
time (`wallet[0].balance`, a stale snapshot by settlement time), and
`totalAmount`. -/
structure PendingWithdrawal where
  reference : TxnRef
  staleBalance : Int
  total : Int
  deriving DecidableEq, Repr

/-- State of one wallet: balance columns, limit columns, its transaction
rows, its hold rows, the pending settlement timers, and the set of references
for which a Paystack charge has been initialized (the external gateway's
state, consumed as a capability). -/
structure WState where
  balance : Int
  availableBalance : Int
  dailyLimit : Int
  monthlyLimit : Int
  txns : List Txn
  holds : List Hold
  pendingW : List PendingWithdrawal
  pendingBills : List TxnRef
  gatewayCharges : List TxnRef
  deriving DecidableEq, Repr

/-- A freshly initialized wallet (`initialize` mutation, part_000 lines
37-68): zero balances, default limits, empty history. -/
def initWState : WState :=
  { balance := 0, availableBalance := 0
    dailyLimit := 500000, monthlyLimit := 2000000
    txns := [], holds := [], pendingW := [], pendingBills := []
    gatewayCharges := [] }

/-- Whether a transaction row with this reference already exists (the unique
index on `walletTransactions.reference`). -/
def usedRef (s : WState) (r : TxnRef) : Bool :=
  s.txns.any (fun t => decide (t.reference = r))

/-- Whether a hold row with this reference already exists (the unique index
on `walletHolds.reference`). -/
def usedHoldRef (s : WState) (r : TxnRef) : Bool :=
  s.holds.any (fun h => decide (h.reference = r))

/-- The ledger operations on one wallet, with the router's checks baked into
each step.  Boolean parameters stand for the outcomes of effects outside the
ledger store: PIN comparison, recipient resolution, the favorite-cache
upsert, the bank row, the payment gateway, and the mock bill provider. -/
inductive Op
  /-- Mutation `fundWallet` (lines 148-226): schema check, Paystack initialize, insert
  a pending deposit.  The charge is initialized before the insert, so a
  duplicate-reference insert still leaves the charge registered. -/
  | fundWallet (amount : Nat) (suffix : String) (gatewayOk : Bool) (now : Nat)
  /-- Mutation `verifyFunding` (lines 229-309).  `gatewayOk` is the customer-side
  payment outcome; modelled from the spec (section 6), the external gateway
  reports success only for references it initialized, so verification
  succeeds only when the reference is among the initialized charges. -/
  | verifyFunding (r : TxnRef) (gatewayOk : Bool)
  /-- Sender side of `transfer` (lines 312-557): debit `amount`, insert the
  `_S` and `_F` legs. -/
  | transferOut (amount : Nat) (suffix : String) (pinOk recipOk cacheOk : Bool)
      (sod som now : Nat)
  /-- Recipient side of `transfer` (lines 462-509): credit
  `amount - transferFee amount`, insert the `_R` leg. -/
  | transferIn (amount : Nat) (suffix : String) (now : Nat)
  /-- Sender side of `payMerchant` (lines 560-728): debit `amount`, insert
  the `_S` leg. -/
  | payMerchantOut (amount : Nat) (suffix : String) (pinOk : Bool) (now : Nat)
  /-- Merchant side of `payMerchant` (lines 642-707): credit
  `amount - merchantFee amount feeBp`, insert the `_M` leg and, when the fee
  is positive, the `_F` leg. -/
  | merchantReceive (amount feeBp : Nat) (suffix : String) (now : Nat)
  /-- Mutation `payBill` (lines 731-895): debit `amount + billFee amount` immediately,
  insert a processing transaction, schedule the settlement timer. -/
  | payBill (amount : Nat) (suffix : String) (pinOk providerOk : Bool) (now : Nat)
  /-- The bill settlement timer firing (lines 850-881): flip the transaction
  to completed; no balance change. -/
  | settleBill (r : TxnRef)
  /-- Mutation `withdraw` (lines 898-1053): place a hold for `amount + 1500`,
  decrement available balance, insert a processing transaction, schedule the
  settlement timer capturing the request-time balance. -/
  | withdraw (amount : Nat) (suffix : String) (pinOk bankOk : Bool) (now : Nat)
  /-- The withdrawal settlement timer firing (lines 998-1039): release the
  hold, set `balance := staleBalance - total` from the captured snapshot,
  flip the transaction to completed with that `balanceAfter`. -/
  | settleWithdraw (r : TxnRef)
  deriving DecidableEq, Repr

/-- The failed-status update `verifyFunding` commits before throwing
(part_000 lines 249-256). -/
def markFailed (r : TxnRef) (u : Txn) : Txn :=
  if u.reference = r then { u with status := .failed } else u

/-- The completion update of `verifyFunding` (part_000 lines 288-300):
status completed, `balanceBefore` set to the balance read in this call,
`balanceAfter` to that balance plus the stored `netAmount`. -/
def applyVerifyCredit (r : TxnRef) (oldBal newBal : Int) (u : Txn) : Txn :=
  if u.reference = r then
    { u with status := .completed, balanceBefore := oldBal, balanceAfter := newBal }
  else u

/-- The bill settlement timer's transaction update (part_000 lines 866-876):
status completed only. -/
def completeBillRow (r : TxnRef) (u : Txn) : Txn :=
  if u.reference = r then { u with status := .completed } else u

/-- The withdrawal settlement timer's transaction update (part_000 lines
1021-1034): status completed and `balanceAfter` set to the new balance
computed from the captured snapshot. -/
def settleWithdrawRow (r : TxnRef) (newBal : Int) (u : Txn) : Txn :=
  if u.reference = r then { u with status := .completed, balanceAfter := newBal } else u

/-- The hold release of the withdrawal settlement timer (part_000 lines
1002-1007). -/
def releaseHoldRow (r : TxnRef) (h : Hold) : Hold :=
  if h.reference = r then { h with released := true } else h

/-- One step of the machine.  Every rejected request (failed check, thrown
error inside the unit of work) leaves the state unchanged, with two
exceptions taken from the source: `fundWallet` registers the gateway charge
before inserting (lines 176-219), and `verifyFunding` commits the
failed-status update before throwing (lines 249-262). -/
def step (s : WState) : Op → WState
  | .fundWallet amount suffix gatewayOk now =>
    let r : TxnRef := ⟨⟨.vh, suffix⟩, ""⟩
    if ¬(100 ≤ amount ∧ amount ≤ 10000000) then s
    else if 10000000 < amount then s
    else if ¬gatewayOk then s
    else if usedRef s r then { s with gatewayCharges := r :: s.gatewayCharges }
    else
      { s with
        gatewayCharges := r :: s.gatewayCharges
        txns :=
          { reference := r, type := "deposit", subType := "card"
            amount := (amount : Int), fee := depositFee amount
            netAmount := (amount : Int) - depositFee amount
            balanceBefore := s.balance, balanceAfter := s.balance
            status := .pending, createdAt := now } :: s.txns }
  | .verifyFunding r gatewayOk =>
    match s.txns.find? (fun t => decide (t.reference = r)) with
    | none => s
    | some t0 =>
      if ¬(gatewayOk ∧ s.gatewayCharges.any (fun c => decide (c = r))) then
        { s with txns := s.txns.map (markFailed r) }
      else
        { s with
          balance := s.balance + t0.netAmount
          availableBalance := s.availableBalance + t0.netAmount
          txns := s.txns.map (applyVerifyCredit r s.balance (s.balance + t0.netAmount)) }
  | .transferOut amount suffix pinOk recipOk cacheOk sod som now =>
    let rS : TxnRef := ⟨⟨.trf, suffix⟩, "_S"⟩
    let rF : TxnRef := ⟨⟨.trf, suffix⟩, "_F"⟩
    if ¬(10 ≤ amount ∧ amount ≤ 500000) then s
    else if ¬pinOk then s
    else if (amount : Int) > s.availableBalance then s
    else if sumTransferAmounts s.txns sod + amount > s.dailyLimit then s
    else if sumTransferAmounts s.txns som + amount > s.monthlyLimit then s
    else if ¬recipOk then s
    else if usedRef s rS ∨ usedRef s rF then s
    else if ¬cacheOk then s
    else
      { s with
        balance := s.balance - amount
        availableBalance := s.availableBalance - amount
        txns :=
          { reference := rF, type := "fee", subType := ""
            amount := -(transferFee amount : Int), fee := 0
            netAmount := -(transferFee amount : Int)
            balanceBefore := s.balance - amount
            balanceAfter := s.balance - amount
            status := .completed, createdAt := now } ::
          { reference := rS, type := "transfer", subType := "p2p_send"
            amount := -(amount : Int), fee := transferFee amount
            netAmount := -(amount : Int)
            balanceBefore := s.balance
            balanceAfter := s.balance - amount
            status := .completed, createdAt := now } :: s.txns }
  | .transferIn amount suffix now =>
    let rR : TxnRef := ⟨⟨.trf, suffix⟩, "_R"⟩
    let net : Int := (amount : Int) - transferFee amount
    if ¬(10 ≤ amount ∧ amount ≤ 500000) then s
    else if usedRef s rR then s
    else
      { s with
        balance := s.balance + net
        availableBalance := s.availableBalance + net
        txns :=
          { reference := rR, type := "transfer", subType := "p2p_receive"
            amount := net, fee := 0, netAmount := net
            balanceBefore := s.balance
            balanceAfter := s.balance + net
            status := .completed, createdAt := now } :: s.txns }
  | .payMerchantOut amount suffix pinOk now =>
    let rS : TxnRef := ⟨⟨.merch, suffix⟩, "_S"⟩
    if ¬(10 ≤ amount) then s
    else if ¬pinOk then s
    else if (amount : Int) > s.availableBalance then s
    else if usedRef s rS then s
    else
      { s with
        balance := s.balance - amount
        availableBalance := s.availableBalance - amount
        txns :=
          { reference := rS, type := "payment", subType := "merchant"
            amount := -(amount : Int), fee := 0
            netAmount := -(amount : Int)
            balanceBefore := s.balance
            balanceAfter := s.balance - amount
            status := .completed, createdAt := now } :: s.txns }
  | .merchantReceive amount feeBp suffix now =>
    let rM : TxnRef := ⟨⟨.merch, suffix⟩, "_M"⟩
    let rF : TxnRef := ⟨⟨.merch, suffix⟩, "_F"⟩
    let fee := merchantFee amount feeBp
    let ma : Int := (amount : Int) - fee
    if usedRef s rM ∨ (0 < fee ∧ usedRef s rF) then s
    else
      { s with
        balance := s.balance + ma
        availableBalance := s.availableBalance + ma
        txns :=
          (if 0 < fee then
            [{ reference := rF, type := "fee", subType := ""
               amount := -(fee : Int), fee := 0
               netAmount := -(fee : Int)
               balanceBefore := s.balance + ma
               balanceAfter := s.balance + ma
               status := .completed, createdAt := now }]
           else []) ++
          { reference := rM, type := "payment", subType := "merchant_receive"
            amount := ma, fee := fee, netAmount := ma
            balanceBefore := s.balance
            balanceAfter := s.balance + ma
            status := .completed, createdAt := now } :: s.txns }
  | .payBill amount suffix pinOk providerOk now =>
    let r : TxnRef := ⟨⟨.bill, suffix⟩, ""⟩
    if ¬(50 ≤ amount) then s
    else if ¬pinOk then s
    else if (amount : Int) > s.availableBalance then s
    else
      let fee := billFee amount
      let total := amount + fee
      if (total : Int) > s.availableBalance then s
      else if ¬providerOk then s
      else if usedRef s r then s
      else
        { s with
          balance := s.balance - total
          availableBalance := s.availableBalance - total
          txns :=
            { reference := r, type := "bill_payment", subType := "electricity"
              amount := -(total : Int), fee := fee
              netAmount := -(total : Int)
              balanceBefore := s.balance
              balanceAfter := s.balance - total
              status := .processing, createdAt := now } :: s.txns
          pendingBills := r :: s.pendingBills }
  | .settleBill r =>
    if s.pendingBills.any (fun x => decide (x = r)) then
      { s with
        txns := s.txns.map (completeBillRow r)
        pendingBills := s.pendingBills.eraseP (fun x => decide (x = r)) }
    else s
  | .withdraw amount suffix pinOk bankOk now =>
    let r : TxnRef := ⟨⟨.wdl, suffix⟩, ""⟩
    if ¬(100 ≤ amount ∧ amount ≤ 500000) then s
    else if ¬pinOk then s
    else if (amount : Int) > s.availableBalance then s
    else if ¬bankOk then s
    else
      let total := amount + withdrawalFee
      if (total : Int) > s.availableBalance then s
      else if usedHoldRef s r ∨ usedRef s r then s
      else
        { s with
          availableBalance := s.availableBalance - total
          holds := ⟨r, (total : Int), false⟩ :: s.holds
          txns :=
            { reference := r, type := "withdrawal", subType := "bank_transfer"
              amount := -(total : Int), fee := withdrawalFee
              netAmount := -(total : Int)
              balanceBefore := s.balance
              balanceAfter := s.balance
              status := .processing, createdAt := now } :: s.txns
          pendingW := ⟨r, s.balance, (total : Int)⟩ :: s.pendingW }
  | .settleWithdraw r =>
    match s.pendingW.find? (fun p => decide (p.reference = r)) with
    | none => s
    | some p =>
      { s with
        balance := p.staleBalance - p.total
        holds := s.holds.map (releaseHoldRow r)
        txns := s.txns.map (settleWithdrawRow r (p.staleBalance - p.total))
        pendingW := s.pendingW.eraseP (fun p' => decide (p'.reference = r)) }

/-- Run a sequence of operations from a state. -/
def run (ops : List Op) (s : WState) : WState :=
  ops.foldl step s

/-! ### Sample data used by several concrete statements -/

/-- A wallet with balance and available balance 10000 and default limits. -/
def sampleWallet : Wallet := ⟨10000, 10000, 500000, 2000000⟩

/-- A freshly initialized wallet row. -/
def zeroWallet : Wallet := ⟨0, 0, 500000, 2000000⟩

/-- The pending deposit row `fundWallet` inserts for amount 10000 with
reference suffix `"d"` on a zero-balance wallet: fee 150, net 9850. -/
def depositTxnD : Txn :=
  { reference := ⟨⟨.vh, "d"⟩, ""⟩, type := "deposit", subType := "card"
    amount := 10000, fee := 150, netAmount := 9850
    balanceBefore := 0, balanceAfter := 0
    status := .pending, createdAt := 0 }

/-- A completed withdrawal transaction of 499000 plus the 1500 fee (total
501500... actually 500500 for amount 499000), as `withdraw` plus its
settlement would record it: signed amount `-500500`, within the current
day window. -/
def withdrawalHistTxn : Txn :=
  { reference := ⟨⟨.wdl, "h"⟩, ""⟩, type := "withdrawal"
    subType := "bank_transfer"
    amount := -500500, fee := 1500, netAmount := -500500
    balanceBefore := 600000, balanceAfter := 99500
    status := .completed, createdAt := 1 }

/-- The consistency property of claim C3, per transaction, with the fee-leg
exception of the amended claim: every completed non-fee transaction satisfies
`balanceAfter = balanceBefore + netAmount`. -/
def txnConsistent (t : Txn) : Prop :=
  t.status = .completed → t.type ≠ "fee" →
    t.balanceAfter = t.balanceBefore + t.netAmount

/-- The inductive invariant of the machine: references are unique (the
database unique index), completed non-fee transactions are consistent, and
each pending settlement timer is linked to the transaction row it will
update, with reference prefix classes separating deposits, bills and
withdrawals. -/
structure Inv (s : WState) : Prop where
  nodupRefs : (s.txns.map Txn.reference).Nodup
  consistent : ∀ t ∈ s.txns, txnConsistent t
  pendLink : ∀ p ∈ s.pendingW, ∀ t ∈ s.txns, t.reference = p.reference →
    t.balanceBefore = p.staleBalance ∧ t.netAmount = -p.total
  pendKind : ∀ p ∈ s.pendingW, p.reference.base.kind = RefKind.wdl
  pendHasTxn : ∀ p ∈ s.pendingW, ∃ t ∈ s.txns, t.reference = p.reference
  billLink : ∀ r ∈ s.pendingBills, ∀ t ∈ s.txns, t.reference = r →
    t.balanceAfter = t.balanceBefore + t.netAmount
  billKind : ∀ r ∈ s.pendingBills, r.base.kind = RefKind.bill
  billHasTxn : ∀ r ∈ s.pendingBills, ∃ t ∈ s.txns, t.reference = r
  chargeKind : ∀ c ∈ s.gatewayCharges, c.base.kind = RefKind.vh

/-- The committed result of `payBill` on `sampleWallet` for amount 1000
(fee 200, total 1200). -/
def c5BillRes : BillPayOk :=
  { wallet := ⟨8800, 8800, 500000, 2000000⟩
    holds := []
    txn :=
      { reference := ⟨⟨.bill, "b"⟩, ""⟩, type := "bill_payment"
        subType := "electricity"
        amount := -1200, fee := 200, netAmount := -1200
        balanceBefore := 10000, balanceAfter := 8800
        status := .processing, createdAt := 0 }
    fee := 200
    total := 1200 }

/-- The committed result of `withdraw` for amount 1000 on a wallet with
balance 10000 and available balance 3000: hold 2500, available balance 500. -/
def c6WithdrawRes : WithdrawOk :=
  { wallet := ⟨10000, 500, 500000, 2000000⟩
    hold := ⟨⟨⟨.wdl, "w"⟩, ""⟩, 2500, false⟩
    txn :=
      { reference := ⟨⟨.wdl, "w"⟩, ""⟩, type := "withdrawal"
        subType := "bank_transfer"
        amount := -2500, fee := 1500, netAmount := -2500
        balanceBefore := 10000, balanceAfter := 10000
        status := .processing, createdAt := 0 }
    fee := 1500
    total := 2500 }

/-- The committed result of a transfer of 5000 from `sampleWallet` to
`zeroWallet` with reference suffix `"t8"`. -/
def c8TransferRes : TransferOk :=
  { sender := ⟨5000, 5000, 500000, 2000000⟩
    recipient := ⟨4900, 4900, 500000, 2000000⟩
    senderLeg :=
      { reference := ⟨⟨.trf, "t8"⟩, "_S"⟩, type := "transfer"
        subType := "p2p_send"
        amount := -5000, fee := 100, netAmount := -5000
        balanceBefore := 10000, balanceAfter := 5000
        status := .completed, createdAt := 0 }
    recipientLeg :=
      { reference := ⟨⟨.trf, "t8"⟩, "_R"⟩, type := "transfer"
        subType := "p2p_receive"
        amount := 4900, fee := 0, netAmount := 4900
        balanceBefore := 0, balanceAfter := 4900
        status := .completed, createdAt := 0 }
    feeLeg :=
      { reference := ⟨⟨.trf, "t8"⟩, "_F"⟩, type := "fee", subType := ""
        amount := -100, fee := 0, netAmount := -100
        balanceBefore := 5000, balanceAfter := 5000
        status := .completed, createdAt := 0 }
    fee := 100 }

/-- The committed result of a transfer of 5000 from `sampleWallet` to
`zeroWallet` with reference suffix `"TRF1"` at time 7. -/
def c9TransferRes : TransferOk :=
  { sender := ⟨5000, 5000, 500000, 2000000⟩
    recipient := ⟨4900, 4900, 500000, 2000000⟩
    senderLeg :=
      { reference := ⟨⟨.trf, "TRF1"⟩, "_S"⟩, type := "transfer"
        subType := "p2p_send"
        amount := -5000, fee := 100, netAmount := -5000
        balanceBefore := 10000, balanceAfter := 5000
        status := .completed, createdAt := 7 }
    recipientLeg :=
      { reference := ⟨⟨.trf, "TRF1"⟩, "_R"⟩, type := "transfer"
        subType := "p2p_receive"
        amount := 4900, fee := 0, netAmount := 4900
        balanceBefore := 0, balanceAfter := 4900
        status := .completed, createdAt := 7 }
    feeLeg :=
      { reference := ⟨⟨.trf, "TRF1"⟩, "_F"⟩, type := "fee", subType := ""
        amount := -100, fee := 0, netAmount := -100
        balanceBefore := 5000, balanceAfter := 5000
        status := .completed, createdAt := 7 }
    fee := 100 }

/-! ### Invariant preservation -/

theorem txnConsistent_of_status_ne {t : Txn} (h : t.status ≠ .completed) :
    txnConsistent t := fun hc _ => absurd hc h

theorem txnConsistent_of_fee {t : Txn} (h : t.type = "fee") :
    txnConsistent t := fun _ hf => absurd h hf

theorem txnConsistent_of_eq {t : Txn}
    (h : t.balanceAfter = t.balanceBefore + t.netAmount) :
    txnConsistent t := fun _ _ => h

theorem usedRef_eq_false {s : WState} {r : TxnRef} (h : usedRef s r = false) :
    ∀ t ∈ s.txns, t.reference ≠ r := by
  intro t ht he
  rw [usedRef, List.any_eq_false] at h
  have := h t ht
  simp [he] at this

theorem fresh_ne_of_exists {s : WState} {r rr : TxnRef}
    (fresh : ∀ t ∈ s.txns, t.reference ≠ r)
    (hex : ∃ t ∈ s.txns, t.reference = rr) : rr ≠ r := by
  rcases hex with ⟨t0, ht0, hr0⟩
  exact fun he => fresh t0 ht0 (hr0.trans he)

theorem markFailed_reference (r : TxnRef) (u : Txn) :
    (markFailed r u).reference = u.reference := by
  unfold markFailed; split <;> rfl

theorem markFailed_fields (r : TxnRef) (u : Txn) :
    (markFailed r u).balanceBefore = u.balanceBefore ∧
    (markFailed r u).balanceAfter = u.balanceAfter ∧
    (markFailed r u).netAmount = u.netAmount := by
  unfold markFailed; split <;> exact ⟨rfl, rfl, rfl⟩

theorem applyVerifyCredit_reference (r : TxnRef) (b n : Int) (u : Txn) :
    (applyVerifyCredit r b n u).reference = u.reference := by
  unfold applyVerifyCredit; split <;> rfl

theorem completeBillRow_reference (r : TxnRef) (u : Txn) :
    (completeBillRow r u).reference = u.reference := by
  unfold completeBillRow; split <;> rfl

theorem completeBillRow_fields (r : TxnRef) (u : Txn) :
    (completeBillRow r u).balanceBefore = u.balanceBefore ∧
    (completeBillRow r u).balanceAfter = u.balanceAfter ∧
    (completeBillRow r u).netAmount = u.netAmount := by
  unfold completeBillRow; split <;> exact ⟨rfl, rfl, rfl⟩

theorem settleWithdrawRow_reference (r : TxnRef) (n : Int) (u : Txn) :
    (settleWithdrawRow r n u).reference = u.reference := by
  unfold settleWithdrawRow; split <;> rfl

theorem settleWithdrawRow_fields (r : TxnRef) (n : Int) (u : Txn) :
    (settleWithdrawRow r n u).balanceBefore = u.balanceBefore ∧
    (settleWithdrawRow r n u).netAmount = u.netAmount := by
  unfold settleWithdrawRow; split <;> exact ⟨rfl, rfl⟩

theorem map_reference_of_preserve {f : Txn → Txn}
    (hf : ∀ u, (f u).reference = u.reference) (l : List Txn) :
    (l.map f).map Txn.reference = l.map Txn.reference := by
  induction l with
  | nil => rfl
  | cons a l ih => simp [hf, ih]

theorem legF_ne_legS (b : Ref) : (TxnRef.mk b "_F") ≠ TxnRef.mk b "_S" := by
  intro he
  injection he with h1 h2
  exact absurd h2 (by decide)

theorem legF_ne_legM (b : Ref) : (TxnRef.mk b "_F") ≠ TxnRef.mk b "_M" := by
  intro he
  injection he with h1 h2
  exact absurd h2 (by decide)

/-- The machine invariant holds of a freshly initialized wallet. -/
theorem inv_init : Inv initWState := by
  refine ⟨?_, ?_, ?_, ?_, ?_, ?_, ?_, ?_, ?_⟩ <;> simp [initWState]

/-- Every machine step preserves the invariant. -/
theorem step_inv (s : WState) (op : Op) (h : Inv s) : Inv (step s op) := by
  cases op with
  | fundWallet amount suffix gatewayOk now =>
    simp only [step]
    split
    · exact h
    split
    · exact h
    split
    · exact h
    split
    · -- duplicate reference: the charge is registered, the insert fails
      refine ⟨h.nodupRefs, h.consistent, h.pendLink, h.pendKind, h.pendHasTxn,
        h.billLink, h.billKind, h.billHasTxn, ?_⟩
      intro c hc
      rcases List.mem_cons.mp hc with rfl | hcs
      · rfl
      · exact h.chargeKind c hcs
    · rename_i hdup
      have hfresh := usedRef_eq_false (Bool.eq_false_iff.mpr hdup)
      refine ⟨?_, ?_, ?_, h.pendKind, ?_, ?_, h.billKind, ?_, ?_⟩
      · refine List.nodup_cons.mpr ⟨?_, h.nodupRefs⟩
        intro hmem
        rcases List.mem_map.mp hmem with ⟨u, hu, hru⟩
        exact hfresh u hu hru
      · intro t ht
        rcases List.mem_cons.mp ht with rfl | hts
        · exact txnConsistent_of_status_ne (by simp)
        · exact h.consistent t hts
      · intro p hp t ht hrt
        rcases List.mem_cons.mp ht with rfl | hts
        · exact absurd hrt.symm (fresh_ne_of_exists hfresh (h.pendHasTxn p hp))
        · exact h.pendLink p hp t hts hrt
      · intro p hp
        rcases h.pendHasTxn p hp with ⟨t, ht, hr⟩
        exact ⟨t, List.mem_cons_of_mem _ ht, hr⟩
      · intro rb hrb t ht hrt
        rcases List.mem_cons.mp ht with rfl | hts
        · exact absurd hrt.symm (fresh_ne_of_exists hfresh (h.billHasTxn rb hrb))
        · exact h.billLink rb hrb t hts hrt
      · intro rb hrb
        rcases h.billHasTxn rb hrb with ⟨t, ht, hr⟩
        exact ⟨t, List.mem_cons_of_mem _ ht, hr⟩
      · intro c hc
        rcases List.mem_cons.mp hc with rfl | hcs
        · rfl
        · exact h.chargeKind c hcs
  | verifyFunding r gatewayOk =>
    simp only [step]
    split
    · exact h
    rename_i t0 heq
    have ht0 : t0 ∈ s.txns := List.mem_of_find?_eq_some heq
    have ht0r : t0.reference = r := by
      have h1 := List.find?_some heq
      simpa using h1
    split
    · -- gateway failure: rows with this reference are marked failed
      refine ⟨?_, ?_, ?_, h.pendKind, ?_, ?_, h.billKind, ?_, h.chargeKind⟩
      · rw [map_reference_of_preserve (markFailed_reference r)]
        exact h.nodupRefs
      · intro t ht
        rcases List.mem_map.mp ht with ⟨u, hu, rfl⟩
        unfold markFailed
        split
        · exact txnConsistent_of_status_ne (by simp)
        · exact h.consistent u hu
      · intro p hp t ht hrt
        rcases List.mem_map.mp ht with ⟨u, hu, rfl⟩
        rw [markFailed_reference] at hrt
        rw [(markFailed_fields r u).1, (markFailed_fields r u).2.2]
        exact h.pendLink p hp u hu hrt
      · intro p hp
        rcases h.pendHasTxn p hp with ⟨t, ht, hr⟩
        exact ⟨markFailed r t, List.mem_map_of_mem _ ht,
          (markFailed_reference r t).trans hr⟩
      · intro rb hrb t ht hrt
        rcases List.mem_map.mp ht with ⟨u, hu, rfl⟩
        rw [markFailed_reference] at hrt
        rw [(markFailed_fields r u).1, (markFailed_fields r u).2.1,
          (markFailed_fields r u).2.2]
        exact h.billLink rb hrb u hu hrt
      · intro rb hrb
        rcases h.billHasTxn rb hrb with ⟨t, ht, hr⟩
        exact ⟨markFailed r t, List.mem_map_of_mem _ ht,
          (markFailed_reference r t).trans hr⟩
    · -- gateway success: the reference is an initialized charge
      rename_i hok
      rw [not_not] at hok
      rcases List.any_eq_true.mp hok.2 with ⟨c, hc, hcr⟩
      have hcr' : c = r := of_decide_eq_true hcr
      subst hcr'
      have hkind : c.base.kind = RefKind.vh := h.chargeKind c hc
      refine ⟨?_, ?_, ?_, h.pendKind, ?_, ?_, h.billKind, ?_, h.chargeKind⟩
      · rw [map_reference_of_preserve (applyVerifyCredit_reference c s.balance
          (s.balance + t0.netAmount))]
        exact h.nodupRefs
      · intro t ht
        rcases List.mem_map.mp ht with ⟨u, hu, rfl⟩
        unfold applyVerifyCredit
        split
        · rename_i hur
          have hut : u = t0 :=
            List.inj_on_of_nodup_map h.nodupRefs hu ht0 (hur.trans ht0r.symm)
          subst hut
          exact txnConsistent_of_eq rfl
        · exact h.consistent u hu
      · intro p hp t ht hrt
        rcases List.mem_map.mp ht with ⟨u, hu, rfl⟩
        rw [applyVerifyCredit_reference] at hrt
        have hpr : p.reference ≠ c := by
          intro he
          have h1 := h.pendKind p hp
          rw [he, hkind] at h1
          exact RefKind.noConfusion h1
        unfold applyVerifyCredit
        rw [if_neg (by rw [hrt]; exact hpr)]
        exact h.pendLink p hp u hu hrt
      · intro p hp
        rcases h.pendHasTxn p hp with ⟨t, ht, hr⟩
        exact ⟨applyVerifyCredit c s.balance (s.balance + t0.netAmount) t,
          List.mem_map_of_mem _ ht, (applyVerifyCredit_reference c _ _ t).trans hr⟩
      · intro rb hrb t ht hrt
        rcases List.mem_map.mp ht with ⟨u, hu, rfl⟩
        rw [applyVerifyCredit_reference] at hrt
        have hbr : rb ≠ c := by
          intro he
          have h1 := h.billKind rb hrb
          rw [he, hkind] at h1
          exact RefKind.noConfusion h1
        unfold applyVerifyCredit
        rw [if_neg (by rw [hrt]; exact hbr)]
        exact h.billLink rb hrb u hu hrt
      · intro rb hrb
        rcases h.billHasTxn rb hrb with ⟨t, ht, hr⟩
        exact ⟨applyVerifyCredit c s.balance (s.balance + t0.netAmount) t,
          List.mem_map_of_mem _ ht, (applyVerifyCredit_reference c _ _ t).trans hr⟩
  | transferOut amount suffix pinOk recipOk cacheOk sod som now =>
    simp only [step]
    split
    · exact h
    split
    · exact h
    split
    · exact h
    split
    · exact h
    split
    · exact h
    split
    · exact h
    split
    · exact h
    split
    · exact h
    rename_i hdup hcache
    rw [not_or] at hdup
    have hfreshS := usedRef_eq_false (Bool.eq_false_iff.mpr hdup.1)
    have hfreshF := usedRef_eq_false (Bool.eq_false_iff.mpr hdup.2)
    refine ⟨?_, ?_, ?_, h.pendKind, ?_, ?_, h.billKind, ?_, h.chargeKind⟩
    · refine List.nodup_cons.mpr ⟨?_, List.nodup_cons.mpr ⟨?_, h.nodupRefs⟩⟩
      · intro hmem
        rcases List.mem_cons.mp hmem with he | hmem
        · exact legF_ne_legS ⟨RefKind.trf, suffix⟩ he
        · rcases List.mem_map.mp hmem with ⟨u, hu, hru⟩
          exact hfreshF u hu hru
      · intro hmem
        rcases List.mem_map.mp hmem with ⟨u, hu, hru⟩
        exact hfreshS u hu hru
    · intro t ht
      rcases List.mem_cons.mp ht with rfl | ht
      · exact txnConsistent_of_fee rfl
      rcases List.mem_cons.mp ht with rfl | ht
      · exact txnConsistent_of_eq
          (show s.balance - (amount : Int) = s.balance + -(amount : Int) by ring)
      · exact h.consistent t ht
    · intro p hp t ht hrt
      rcases List.mem_cons.mp ht with rfl | ht
      · exact absurd hrt.symm (fresh_ne_of_exists hfreshF (h.pendHasTxn p hp))
      rcases List.mem_cons.mp ht with rfl | ht
      · exact absurd hrt.symm (fresh_ne_of_exists hfreshS (h.pendHasTxn p hp))
      · exact h.pendLink p hp t ht hrt
    · intro p hp
      rcases h.pendHasTxn p hp with ⟨t, ht, hr⟩
      exact ⟨t, List.mem_cons_of_mem _ (List.mem_cons_of_mem _ ht), hr⟩
    · intro rb hrb t ht hrt
      rcases List.mem_cons.mp ht with rfl | ht
      · exact absurd hrt.symm (fresh_ne_of_exists hfreshF (h.billHasTxn rb hrb))
      rcases List.mem_cons.mp ht with rfl | ht
      · exact absurd hrt.symm (fresh_ne_of_exists hfreshS (h.billHasTxn rb hrb))
      · exact h.billLink rb hrb t ht hrt
    · intro rb hrb
      rcases h.billHasTxn rb hrb with ⟨t, ht, hr⟩
      exact ⟨t, List.mem_cons_of_mem _ (List.mem_cons_of_mem _ ht), hr⟩
  | transferIn amount suffix now =>
    simp only [step]
    split
    · exact h
    split
    · exact h
    rename_i hdup
    have hfresh := usedRef_eq_false (Bool.eq_false_iff.mpr hdup)
    refine ⟨?_, ?_, ?_, h.pendKind, ?_, ?_, h.billKind, ?_, h.chargeKind⟩
    · refine List.nodup_cons.mpr ⟨?_, h.nodupRefs⟩
      intro hmem
      rcases List.mem_map.mp hmem with ⟨u, hu, hru⟩
      exact hfresh u hu hru
    · intro t ht
      rcases List.mem_cons.mp ht with rfl | ht
      · exact txnConsistent_of_eq rfl
      · exact h.consistent t ht
    · intro p hp t ht hrt
      rcases List.mem_cons.mp ht with rfl | ht
      · exact absurd hrt.symm (fresh_ne_of_exists hfresh (h.pendHasTxn p hp))
      · exact h.pendLink p hp t ht hrt
    · intro p hp
      rcases h.pendHasTxn p hp with ⟨t, ht, hr⟩
      exact ⟨t, List.mem_cons_of_mem _ ht, hr⟩
    · intro rb hrb t ht hrt
      rcases List.mem_cons.mp ht with rfl | ht
      · exact absurd hrt.symm (fresh_ne_of_exists hfresh (h.billHasTxn rb hrb))
      · exact h.billLink rb hrb t ht hrt
    · intro rb hrb
      rcases h.billHasTxn rb hrb with ⟨t, ht, hr⟩
      exact ⟨t, List.mem_cons_of_mem _ ht, hr⟩
  | payMerchantOut amount suffix pinOk now =>
    simp only [step]
    split
    · exact h
    split
    · exact h
    split
    · exact h
    split
    · exact h
    rename_i hdup
    have hfresh := usedRef_eq_false (Bool.eq_false_iff.mpr hdup)
    refine ⟨?_, ?_, ?_, h.pendKind, ?_, ?_, h.billKind, ?_, h.chargeKind⟩
    · refine List.nodup_cons.mpr ⟨?_, h.nodupRefs⟩
      intro hmem
      rcases List.mem_map.mp hmem with ⟨u, hu, hru⟩
      exact hfresh u hu hru
    · intro t ht
      rcases List.mem_cons.mp ht with rfl | ht
      · exact txnConsistent_of_eq
          (show s.balance - (amount : Int) = s.balance + -(amount : Int) by ring)
      · exact h.consistent t ht
    · intro p hp t ht hrt
      rcases List.mem_cons.mp ht with rfl | ht
      · exact absurd hrt.symm (fresh_ne_of_exists hfresh (h.pendHasTxn p hp))
      · exact h.pendLink p hp t ht hrt
    · intro p hp
      rcases h.pendHasTxn p hp with ⟨t, ht, hr⟩
      exact ⟨t, List.mem_cons_of_mem _ ht, hr⟩
    · intro rb hrb t ht hrt
      rcases List.mem_cons.mp ht with rfl | ht
      · exact absurd hrt.symm (fresh_ne_of_exists hfresh (h.billHasTxn rb hrb))
      · exact h.billLink rb hrb t ht hrt
    · intro rb hrb
      rcases h.billHasTxn rb hrb with ⟨t, ht, hr⟩
      exact ⟨t, List.mem_cons_of_mem _ ht, hr⟩
  | merchantReceive amount feeBp suffix now =>
    simp only [step]
    split
    · exact h
    rename_i hdup
    rw [not_or] at hdup
    have hfreshM := usedRef_eq_false (Bool.eq_false_iff.mpr hdup.1)
    split
    · -- positive fee: a fee leg is inserted as well
      rename_i hfee
      have hfreshF : ∀ t ∈ s.txns,
          t.reference ≠ ⟨⟨RefKind.merch, suffix⟩, "_F"⟩ := by
        refine usedRef_eq_false (Bool.eq_false_iff.mpr ?_)
        intro hh
        exact hdup.2 ⟨hfee, hh⟩
      show Inv { s with
        balance := s.balance + ((amount : Int) - merchantFee amount feeBp)
        availableBalance :=
          s.availableBalance + ((amount : Int) - merchantFee amount feeBp)
        txns := _ :: _ :: s.txns }
      refine ⟨?_, ?_, ?_, h.pendKind, ?_, ?_, h.billKind, ?_, h.chargeKind⟩
      · refine List.nodup_cons.mpr ⟨?_, List.nodup_cons.mpr ⟨?_, h.nodupRefs⟩⟩
        · intro hmem
          rcases List.mem_cons.mp hmem with he | hmem
          · exact legF_ne_legM ⟨RefKind.merch, suffix⟩ he
          · rcases List.mem_map.mp hmem with ⟨u, hu, hru⟩
            exact hfreshF u hu hru
        · intro hmem
          rcases List.mem_map.mp hmem with ⟨u, hu, hru⟩
          exact hfreshM u hu hru
      · intro t ht
        rcases List.mem_cons.mp ht with rfl | ht
        · exact txnConsistent_of_fee rfl
        rcases List.mem_cons.mp ht with rfl | ht
        · exact txnConsistent_of_eq rfl
        · exact h.consistent t ht
      · intro p hp t ht hrt
        rcases List.mem_cons.mp ht with rfl | ht
        · exact absurd hrt.symm (fresh_ne_of_exists hfreshF (h.pendHasTxn p hp))
        rcases List.mem_cons.mp ht with rfl | ht
        · exact absurd hrt.symm (fresh_ne_of_exists hfreshM (h.pendHasTxn p hp))
        · exact h.pendLink p hp t ht hrt
      · intro p hp
        rcases h.pendHasTxn p hp with ⟨t, ht, hr⟩
        exact ⟨t, List.mem_cons_of_mem _ (List.mem_cons_of_mem _ ht), hr⟩
      · intro rb hrb t ht hrt
        rcases List.mem_cons.mp ht with rfl | ht
        · exact absurd hrt.symm (fresh_ne_of_exists hfreshF (h.billHasTxn rb hrb))
        rcases List.mem_cons.mp ht with rfl | ht
        · exact absurd hrt.symm (fresh_ne_of_exists hfreshM (h.billHasTxn rb hrb))
        · exact h.billLink rb hrb t ht hrt
      · intro rb hrb
        rcases h.billHasTxn rb hrb with ⟨t, ht, hr⟩
        exact ⟨t, List.mem_cons_of_mem _ (List.mem_cons_of_mem _ ht), hr⟩
    · show Inv { s with
        balance := s.balance + ((amount : Int) - merchantFee amount feeBp)
        availableBalance :=
          s.availableBalance + ((amount : Int) - merchantFee amount feeBp)
        txns := _ :: s.txns }
      refine ⟨?_, ?_, ?_, h.pendKind, ?_, ?_, h.billKind, ?_, h.chargeKind⟩
      · refine List.nodup_cons.mpr ⟨?_, h.nodupRefs⟩
        intro hmem
        rcases List.mem_map.mp hmem with ⟨u, hu, hru⟩
        exact hfreshM u hu hru
      · intro t ht
        rcases List.mem_cons.mp ht with rfl | ht
        · exact txnConsistent_of_eq rfl
        · exact h.consistent t ht
      · intro p hp t ht hrt
        rcases List.mem_cons.mp ht with rfl | ht
        · exact absurd hrt.symm (fresh_ne_of_exists hfreshM (h.pendHasTxn p hp))
        · exact h.pendLink p hp t ht hrt
      · intro p hp
        rcases h.pendHasTxn p hp with ⟨t, ht, hr⟩
        exact ⟨t, List.mem_cons_of_mem _ ht, hr⟩
      · intro rb hrb t ht hrt
        rcases List.mem_cons.mp ht with rfl | ht
        · exact absurd hrt.symm (fresh_ne_of_exists hfreshM (h.billHasTxn rb hrb))
        · exact h.billLink rb hrb t ht hrt
      · intro rb hrb
        rcases h.billHasTxn rb hrb with ⟨t, ht, hr⟩
        exact ⟨t, List.mem_cons_of_mem _ ht, hr⟩
  | payBill amount suffix pinOk providerOk now =>
    simp only [step]
    split
    · exact h
    split
    · exact h
    split
    · exact h
    split
    · exact h
    split
    · exact h
    split
    · exact h
    rename_i hdup
    have hfresh := usedRef_eq_false (Bool.eq_false_iff.mpr hdup)
    refine ⟨?_, ?_, ?_, h.pendKind, ?_, ?_, ?_, ?_, h.chargeKind⟩
    · refine List.nodup_cons.mpr ⟨?_, h.nodupRefs⟩
      intro hmem
      rcases List.mem_map.mp hmem with ⟨u, hu, hru⟩
      exact hfresh u hu hru
    · intro t ht
      rcases List.mem_cons.mp ht with rfl | ht
      · exact txnConsistent_of_status_ne (by simp)
      · exact h.consistent t ht
    · intro p hp t ht hrt
      rcases List.mem_cons.mp ht with rfl | ht
      · exact absurd hrt.symm (fresh_ne_of_exists hfresh (h.pendHasTxn p hp))
      · exact h.pendLink p hp t ht hrt
    · intro p hp
      rcases h.pendHasTxn p hp with ⟨t, ht, hr⟩
      exact ⟨t, List.mem_cons_of_mem _ ht, hr⟩
    · intro rb hrb t ht hrt
      rcases List.mem_cons.mp hrb with rfl | hrb
      · rcases List.mem_cons.mp ht with rfl | ht
        · show s.balance - ((amount + billFee amount : Nat) : Int) =
            s.balance + -((amount + billFee amount : Nat) : Int)
          ring
        · exact absurd hrt (hfresh t ht)
      · rcases List.mem_cons.mp ht with rfl | ht
        · exact absurd hrt.symm (fresh_ne_of_exists hfresh (h.billHasTxn rb hrb))
        · exact h.billLink rb hrb t ht hrt
    · intro rb hrb
      rcases List.mem_cons.mp hrb with rfl | hrb
      · rfl
      · exact h.billKind rb hrb
    · intro rb hrb
      rcases List.mem_cons.mp hrb with rfl | hrb
      · exact ⟨_, List.mem_cons_self _ _, rfl⟩
      · rcases h.billHasTxn rb hrb with ⟨t, ht, hr⟩
        exact ⟨t, List.mem_cons_of_mem _ ht, hr⟩
  | settleBill r =>
    simp only [step]
    split
    · rename_i hany
      rcases List.any_eq_true.mp hany with ⟨x, hx, hxr⟩
      have hxr' : x = r := of_decide_eq_true hxr
      subst hxr'
      refine ⟨?_, ?_, ?_, h.pendKind, ?_, ?_, ?_, ?_, h.chargeKind⟩
      · rw [map_reference_of_preserve (completeBillRow_reference x)]
        exact h.nodupRefs
      · intro t ht
        rcases List.mem_map.mp ht with ⟨u, hu, rfl⟩
        unfold completeBillRow
        split
        · rename_i hur
          exact txnConsistent_of_eq (h.billLink x hx u hu hur)
        · exact h.consistent u hu
      · intro p hp t ht hrt
        rcases List.mem_map.mp ht with ⟨u, hu, rfl⟩
        rw [completeBillRow_reference] at hrt
        rw [(completeBillRow_fields x u).1, (completeBillRow_fields x u).2.2]
        exact h.pendLink p hp u hu hrt
      · intro p hp
        rcases h.pendHasTxn p hp with ⟨t, ht, hr⟩
        exact ⟨completeBillRow x t, List.mem_map_of_mem _ ht,
          (completeBillRow_reference x t).trans hr⟩
      · intro rb hrb t ht hrt
        have hrb' : rb ∈ s.pendingBills :=
          (List.eraseP_sublist _).subset hrb
        rcases List.mem_map.mp ht with ⟨u, hu, rfl⟩
        rw [completeBillRow_reference] at hrt
        rw [(completeBillRow_fields x u).1, (completeBillRow_fields x u).2.1,
          (completeBillRow_fields x u).2.2]
        exact h.billLink rb hrb' u hu hrt
      · intro rb hrb
        exact h.billKind rb ((List.eraseP_sublist _).subset hrb)
      · intro rb hrb
        rcases h.billHasTxn rb ((List.eraseP_sublist _).subset hrb) with ⟨t, ht, hr⟩
        exact ⟨completeBillRow x t, List.mem_map_of_mem _ ht,
          (completeBillRow_reference x t).trans hr⟩
    · exact h
  | withdraw amount suffix pinOk bankOk now =>
    simp only [step]
    split
    · exact h
    split
    · exact h
    split
    · exact h
    split
    · exact h
    split
    · exact h
    split
    · exact h
    rename_i hdup
    rw [not_or] at hdup
    have hfresh := usedRef_eq_false (Bool.eq_false_iff.mpr hdup.2)
    refine ⟨?_, ?_, ?_, ?_, ?_, ?_, h.billKind, ?_, h.chargeKind⟩
    · refine List.nodup_cons.mpr ⟨?_, h.nodupRefs⟩
      intro hmem
      rcases List.mem_map.mp hmem with ⟨u, hu, hru⟩
      exact hfresh u hu hru
    · intro t ht
      rcases List.mem_cons.mp ht with rfl | ht
      · exact txnConsistent_of_status_ne (by simp)
      · exact h.consistent t ht
    · intro p hp t ht hrt
      rcases List.mem_cons.mp hp with rfl | hp
      · rcases List.mem_cons.mp ht with rfl | ht
        · exact ⟨rfl, rfl⟩
        · exact absurd hrt (hfresh t ht)
      · rcases List.mem_cons.mp ht with rfl | ht
        · exact absurd hrt.symm (fresh_ne_of_exists hfresh (h.pendHasTxn p hp))
        · exact h.pendLink p hp t ht hrt
    · intro p hp
      rcases List.mem_cons.mp hp with rfl | hp
      · rfl
      · exact h.pendKind p hp
    · intro p hp
      rcases List.mem_cons.mp hp with rfl | hp
      · exact ⟨_, List.mem_cons_self _ _, rfl⟩
      · rcases h.pendHasTxn p hp with ⟨t, ht, hr⟩
        exact ⟨t, List.mem_cons_of_mem _ ht, hr⟩
    · intro rb hrb t ht hrt
      rcases List.mem_cons.mp ht with rfl | ht
      · exact absurd hrt.symm (fresh_ne_of_exists hfresh (h.billHasTxn rb hrb))
      · exact h.billLink rb hrb t ht hrt
    · intro rb hrb
      rcases h.billHasTxn rb hrb with ⟨t, ht, hr⟩
      exact ⟨t, List.mem_cons_of_mem _ ht, hr⟩
  | settleWithdraw r =>
    simp only [step]
    split
    · exact h
    rename_i p heq
    have hpmem : p ∈ s.pendingW := List.mem_of_find?_eq_some heq
    have hpr : p.reference = r := by
      have h1 := List.find?_some heq
      simpa using h1
    refine ⟨?_, ?_, ?_, ?_, ?_, ?_, h.billKind, ?_, h.chargeKind⟩
    · rw [map_reference_of_preserve
        (settleWithdrawRow_reference r (p.staleBalance - p.total))]
      exact h.nodupRefs
    · intro t ht
      rcases List.mem_map.mp ht with ⟨u, hu, rfl⟩
      unfold settleWithdrawRow
      split
      · rename_i hur
        have hlink := h.pendLink p hpmem u hu (hur.trans hpr.symm)
        refine txnConsistent_of_eq ?_
        show p.staleBalance - p.total = u.balanceBefore + u.netAmount
        rw [hlink.1, hlink.2]
        ring
      · exact h.consistent u hu
    · intro p' hp' t ht hrt
      have hp'mem : p' ∈ s.pendingW := (List.eraseP_sublist _).subset hp'
      rcases List.mem_map.mp ht with ⟨u, hu, rfl⟩
      rw [settleWithdrawRow_reference] at hrt
      rw [(settleWithdrawRow_fields r _ u).1, (settleWithdrawRow_fields r _ u).2]
      exact h.pendLink p' hp'mem u hu hrt
    · intro p' hp'
      exact h.pendKind p' ((List.eraseP_sublist _).subset hp')
    · intro p' hp'
      rcases h.pendHasTxn p' ((List.eraseP_sublist _).subset hp') with ⟨t, ht, hr⟩
      exact ⟨settleWithdrawRow r (p.staleBalance - p.total) t,
        List.mem_map_of_mem _ ht,
        (settleWithdrawRow_reference r _ t).trans hr⟩
    · intro rb hrb t ht hrt
      rcases List.mem_map.mp ht with ⟨u, hu, rfl⟩
      rw [settleWithdrawRow_reference] at hrt
      have hbr : u.reference ≠ r := by
        rw [hrt]
        intro he
        have h1 := h.billKind rb hrb
        have h2 := h.pendKind p hpmem
        rw [hpr, ← he] at h2
        rw [h2] at h1
        exact RefKind.noConfusion h1
      unfold settleWithdrawRow
      rw [if_neg hbr]
      exact h.billLink rb hrb u hu hrt
    · intro rb hrb
      rcases h.billHasTxn rb hrb with ⟨t, ht, hr⟩
      exact ⟨settleWithdrawRow r (p.staleBalance - p.total) t,
        List.mem_map_of_mem _ ht,
        (settleWithdrawRow_reference r _ t).trans hr⟩

/-- The invariant holds after running any operation sequence. -/
theorem run_inv (ops : List Op) (s : WState) (h : Inv s) : Inv (run ops s) := by
  induction ops generalizing s with
  | nil => exact h
  | cons op ops ih => exact ih (step s op) (step_inv s op h)

/-! ### Claims -/

/-- Claim C1.  The spec requires that re-calling funding verification on an
already-completed transaction return the stored terminal result without
re-touching the balance.  The handler never checks the stored status: for
the pending deposit of 10000 (net 9850), the first verify credits 9850 and
marks the row completed, and a second verify on the now-completed row
credits 9850 again, leaving balance 19700 instead of 9850 — a double
credit. -/
theorem c1_verify_funding_double_credit :
    (fundWallet zeroWallet 10000 true "card" "d" 0).pendingTxn = some depositTxnD ∧
    (verifyFunding zeroWallet [depositTxnD] ⟨⟨.vh, "d"⟩, ""⟩ true).1.balance = 9850 ∧
    ((verifyFunding zeroWallet [depositTxnD] ⟨⟨.vh, "d"⟩, ""⟩ true).2.1.map
      Txn.status) = [TxStatus.completed] ∧
    (verifyFunding (verifyFunding zeroWallet [depositTxnD] ⟨⟨.vh, "d"⟩, ""⟩ true).1
      (verifyFunding zeroWallet [depositTxnD] ⟨⟨.vh, "d"⟩, ""⟩ true).2.1
      ⟨⟨.vh, "d"⟩, ""⟩ true).1.balance = 19700 ∧
    (verifyFunding (verifyFunding zeroWallet [depositTxnD] ⟨⟨.vh, "d"⟩, ""⟩ true).1
      (verifyFunding zeroWallet [depositTxnD] ⟨⟨.vh, "d"⟩, ""⟩ true).2.1
      ⟨⟨.vh, "d"⟩, ""⟩ true).2.2 = none := by
  decide

/-- Claim C2.  Non-negativity fails on the code: a transfer of the schema
minimum amount 10 carries the fee `max(100, round(10 * 0.005)) = 100`, so the
recipient is credited `netAmount = 10 - 100 = -90`; a fresh recipient wallet
ends with balance and available balance -90. -/
theorem c2_transfer_min_amount_negative_balance :
    (transfer sampleWallet [] zeroWallet 10 true true false true 0 0 0 "t").map
      (fun r => (r.recipient.balance, r.recipient.availableBalance)) =
      .ok (-90, -90) ∧ (-90 : Int) < 0 :=
  ⟨rfl, by decide⟩

/-- Claim C3, counterexample.  The fee leg of a completed transfer of 5000
is inserted with `balanceAfter = balanceBefore = 5000` but
`netAmount = -100`, so `balanceAfter = balanceBefore + netAmount` fails on
this completed transaction. -/
theorem c3_fee_leg_counterexample :
    (transfer sampleWallet [] zeroWallet 5000 true true false true 0 0 0 "t").map
      (fun r => (r.feeLeg.status, r.feeLeg.balanceBefore, r.feeLeg.balanceAfter,
        r.feeLeg.netAmount)) = .ok (.completed, 5000, 5000, -100) ∧
    (5000 : Int) ≠ 5000 + (-100) :=
  ⟨rfl, by decide⟩

/-- Claim C4, counterexample.  With one completed withdrawal debit of 500500
inside the day window, the spec's spent total is 500500, so a transfer of
5000 should be rejected (500500 + 5000 > 500000); but the transfer mutation
sums only completed `type = 'transfer'` rows, computes 0, accepts the
request and mutates the sender balance to 94500. -/
theorem c4_spent_total_counterexample :
    specSpentAmounts [withdrawalHistTxn] 0 = 500500 ∧
    sumTransferAmounts [withdrawalHistTxn] 0 = 0 ∧
    specSpentAmounts [withdrawalHistTxn] 0 + 5000 > 500000 ∧
    (transfer ⟨99500, 99500, 500000, 2000000⟩ [withdrawalHistTxn] zeroWallet 5000
      true true false true 0 0 2 "t").map (fun r => r.sender.balance) =
      .ok 94500 :=
  ⟨by decide, by decide, by decide, rfl⟩

/-- Claim C4, amended.  The spent totals the transfer mutation uses are
`sumTransferAmounts` — the signed sum of completed `type = 'transfer'`
transactions in the window (sent legs count negatively, received legs
positively; payments, withdrawals, fees and deposits are excluded) — and the
request is rejected with a limit error, before any balance mutation,
whenever that total plus the requested amount exceeds the daily or monthly
cap. -/
theorem c4_limit_check_rejects_before_mutation
    (sender : Wallet) (txns : List Txn) (recipient : Wallet) (amount : Nat)
    (recipFound recipSelf cacheOk : Bool) (sod som now : Nat) (suffix : String)
    (h1 : 10 ≤ amount) (h2 : amount ≤ 500000)
    (h3 : (amount : Int) ≤ sender.availableBalance) :
    (sumTransferAmounts txns sod + amount > sender.dailyLimit →
      transfer sender txns recipient amount true recipFound recipSelf cacheOk
        sod som now suffix = .error .limitDailyExceeded) ∧
    (sumTransferAmounts txns sod + amount ≤ sender.dailyLimit →
      sumTransferAmounts txns som + amount > sender.monthlyLimit →
      transfer sender txns recipient amount true recipFound recipSelf cacheOk
        sod som now suffix = .error .limitMonthlyExceeded) := by
  constructor
  · intro hd
    simp only [transfer]
    rw [if_neg (by simp [h1, h2]), if_neg (by simp),
      if_neg (by omega), if_pos hd]
  · intro hd hm
    simp only [transfer]
    rw [if_neg (by simp [h1, h2]), if_neg (by simp),
      if_neg (by omega), if_neg (by omega), if_pos hm]

/-- Witness for the amended claim C4 at a concrete input: daily cap 5,
empty history, requested amount 10. -/
theorem c4_limit_check_rejects_before_mutation_witness :
    transfer ⟨100, 100, 5, 2000000⟩ [] zeroWallet 10 true true false true
      0 0 0 "t" = .error .limitDailyExceeded :=
  (c4_limit_check_rejects_before_mutation ⟨100, 100, 5, 2000000⟩ [] zeroWallet
    10 true false true 0 0 0 "t" (by decide) (by decide) (by decide)).1
    (by decide)

/-- Claim C5, counterexample.  A bill payment of 1000 (fee 200) accepted into
`processing` debits balance and available balance by 1200 immediately
(10000 becomes 8800, not unchanged) and inserts no hold. -/
theorem c5_bill_debits_while_processing :
    (payBill sampleWallet [] 1000 true true 0 "b").map
      (fun r => (r.wallet.balance, r.wallet.availableBalance, r.txn.status,
        r.holds)) = .ok (8800, 8800, .processing, []) ∧
    (8800 : Int) ≠ 10000 :=
  ⟨rfl, by decide⟩

/-- Claim C5, amended.  A bill payment accepted into `processing` immediately
debits `amount + fee` from both balance and available balance, places no
hold, and the asynchronous settlement only marks the transaction completed
without touching balances; the synchronous provider-failure path throws
inside the unit of work, so nothing is committed. -/
theorem c5_bill_payment_immediate_debit
    (w : Wallet) (holds : List Hold) (amount : Nat) (now : Nat)
    (suffix : String) (r : BillPayOk)
    (h : payBill w holds amount true true now suffix = .ok r) :
    r.wallet.balance = w.balance - ((amount + billFee amount : Nat) : Int) ∧
    r.wallet.availableBalance =
      w.availableBalance - ((amount + billFee amount : Nat) : Int) ∧
    r.holds = holds ∧
    r.txn.status = .processing ∧
    (settleBillTxn r.txn).status = .completed ∧
    (settleBillTxn r.txn).balanceAfter = r.txn.balanceAfter ∧
    (settleBillTxn r.txn).balanceBefore = r.txn.balanceBefore ∧
    (∀ pinOk, exceptOk (payBill w holds amount pinOk false now suffix) = false) := by
  simp only [payBill] at h
  repeat' split at h
  any_goals exact (Except.noConfusion h)
  injection h with h
  subst h
  refine ⟨rfl, rfl, rfl, rfl, rfl, rfl, rfl, ?_⟩
  intro pinOk
  simp only [payBill]
  repeat' split
  all_goals first | rfl | simp_all [exceptOk]

/-- Witness for the amended claim C5 at a concrete input: bill payment of
1000 from `sampleWallet`. -/
theorem c5_bill_payment_immediate_debit_witness :
    c5BillRes.wallet.balance = 8800 ∧
    c5BillRes.wallet.availableBalance = 8800 ∧
    c5BillRes.holds = ([] : List Hold) ∧
    c5BillRes.txn.status = .processing ∧
    (settleBillTxn c5BillRes.txn).status = .completed ∧
    (settleBillTxn c5BillRes.txn).balanceAfter = c5BillRes.txn.balanceAfter ∧
    (settleBillTxn c5BillRes.txn).balanceBefore = c5BillRes.txn.balanceBefore ∧
    (∀ pinOk, exceptOk (payBill sampleWallet [] 1000 pinOk false 0 "b") = false) :=
  c5_bill_payment_immediate_debit sampleWallet [] 1000 0 "b" c5BillRes rfl

/-- Claim C6.  A withdrawal fails with an insufficient-balance error whenever
`availableBalance < amount + 1500`; otherwise a hold for `amount + 1500` is
placed, available balance drops by `amount + 1500`, and balance is unchanged,
with the transaction left `processing` and `balanceAfter = balanceBefore`. -/
theorem c6_withdraw_hold_semantics
    (w : Wallet) (amount : Nat) (now : Nat) (suffix : String)
    (h1 : 100 ≤ amount) (h2 : amount ≤ 500000) :
    (w.availableBalance < (amount : Int) + 1500 →
      withdraw w amount true true true now suffix =
        .error .insufficientBalance) ∧
    (∀ r, withdraw w amount true true true now suffix = .ok r →
      r.wallet.balance = w.balance ∧
      r.wallet.availableBalance = w.availableBalance - ((amount + 1500 : Nat) : Int) ∧
      r.hold.amount = ((amount + 1500 : Nat) : Int) ∧
      r.hold.released = false ∧
      r.txn.status = .processing ∧
      r.txn.balanceAfter = r.txn.balanceBefore ∧
      r.total = amount + 1500) := by
  constructor
  · intro hlt
    simp only [withdraw]
    rw [if_neg (by simp [h1, h2]), if_neg (by simp)]
    by_cases hA : (amount : Int) > w.availableBalance
    · rw [if_pos hA]
    · rw [if_neg hA, if_neg (by simp), if_neg (by simp),
        if_pos (by simp only [withdrawalFee]; push_cast; omega)]
  · intro r h
    simp only [withdraw] at h
    repeat' split at h
    any_goals exact (Except.noConfusion h)
    injection h with h
    subst h
    exact ⟨rfl, rfl, rfl, rfl, rfl, rfl, rfl⟩

/-- Witness for claim C6, at the spec's scenario: with available balance
3000, withdrawing 2000 (hold 3500) fails insufficient, withdrawing 1000
succeeds with hold 2500, available balance 500 and balance unchanged. -/
theorem c6_withdraw_hold_semantics_witness :
    withdraw ⟨10000, 3000, 500000, 2000000⟩ 2000 true true true 0 "w" =
      .error .insufficientBalance ∧
    (c6WithdrawRes.wallet.balance = 10000 ∧
     c6WithdrawRes.wallet.availableBalance = 500 ∧
     c6WithdrawRes.hold.amount = 2500 ∧
     c6WithdrawRes.hold.released = false ∧
     c6WithdrawRes.txn.status = .processing ∧
     c6WithdrawRes.txn.balanceAfter = c6WithdrawRes.txn.balanceBefore ∧
     c6WithdrawRes.total = 2500) :=
  ⟨(c6_withdraw_hold_semantics ⟨10000, 3000, 500000, 2000000⟩ 2000 0 "w"
      (by decide) (by decide)).1 (by decide),
   (c6_withdraw_hold_semantics ⟨10000, 3000, 500000, 2000000⟩ 1000 0 "w"
      (by decide) (by decide)).2 c6WithdrawRes rfl⟩

/-- Claim C8.  For every committed transfer, the magnitude of the sender
debit equals the recipient credit plus the fee: the sender leg is `-amount`,
the recipient leg is `amount - fee` and the fee leg is `-fee`. -/
theorem c8_transfer_conservation
    (sender : Wallet) (txns : List Txn) (recipient : Wallet) (amount : Nat)
    (pinOk recipFound recipSelf cacheOk : Bool) (sod som now : Nat)
    (suffix : String) (r : TransferOk)
    (h : transfer sender txns recipient amount pinOk recipFound recipSelf
      cacheOk sod som now suffix = .ok r) :
    -r.senderLeg.amount = r.recipientLeg.amount + -r.feeLeg.amount ∧
    -r.senderLeg.amount = r.recipientLeg.amount + (r.fee : Int) := by
  unfold transfer at h
  repeat' split at h
  any_goals exact (Except.noConfusion h)
  injection h with h
  subst h
  constructor
  · show -(-(amount : Int)) =
      ((amount : Int) - transferFee amount) + -(-(transferFee amount : Int))
    ring
  · show -(-(amount : Int)) =
      ((amount : Int) - transferFee amount) + (transferFee amount : Int)
    ring

/-- Witness for claim C8 at a concrete committed transfer. -/
theorem c8_transfer_conservation_witness :
    -c8TransferRes.senderLeg.amount =
      c8TransferRes.recipientLeg.amount + -c8TransferRes.feeLeg.amount ∧
    -c8TransferRes.senderLeg.amount =
      c8TransferRes.recipientLeg.amount + (c8TransferRes.fee : Int) :=
  c8_transfer_conservation sampleWallet [] zeroWallet 5000 true true false
    true 0 0 0 "t8" c8TransferRes rfl

/-- Claim C9.  The transfer fee is `max(100, round(amount * 0.005))`, and the
spec's scenario holds: transferring 5000 from a wallet with balance and
available balance 10000 yields fee 100, sender balance 5000, recipient
credited 4900, a completed fee transaction of 100, and three pairwise
distinct leg references. -/
theorem c9_transfer_fee_formula_and_scenario :
    (∀ b : Wallet,
      (transfer sampleWallet [] b 5000 true true false true 0 0 7 "TRF1").map
        (fun r => (r.fee, r.sender.balance, r.sender.availableBalance,
          r.recipient.balance, r.recipient.availableBalance,
          r.feeLeg.amount, r.feeLeg.type, r.feeLeg.status,
          r.senderLeg.reference, r.recipientLeg.reference,
          r.feeLeg.reference)) =
        .ok (100, 5000, 5000, b.balance + 4900, b.availableBalance + 4900,
          -100, "fee", .completed, ⟨⟨.trf, "TRF1"⟩, "_S"⟩,
          ⟨⟨.trf, "TRF1"⟩, "_R"⟩, ⟨⟨.trf, "TRF1"⟩, "_F"⟩)) ∧
    ((⟨⟨.trf, "TRF1"⟩, "_S"⟩ : TxnRef) ≠ ⟨⟨.trf, "TRF1"⟩, "_R"⟩ ∧
     (⟨⟨.trf, "TRF1"⟩, "_S"⟩ : TxnRef) ≠ ⟨⟨.trf, "TRF1"⟩, "_F"⟩ ∧
     (⟨⟨.trf, "TRF1"⟩, "_R"⟩ : TxnRef) ≠ ⟨⟨.trf, "TRF1"⟩, "_F"⟩) ∧
    (∀ (sender : Wallet) (txns : List Txn) (recipient : Wallet) (amount : Nat)
      (pinOk recipFound recipSelf cacheOk : Bool) (sod som now : Nat)
      (suffix : String) (r : TransferOk),
      transfer sender txns recipient amount pinOk recipFound recipSelf cacheOk
        sod som now suffix = .ok r →
      r.fee = transferFee amount ∧ r.fee = max 100 ((amount + 100) / 200)) := by
  refine ⟨fun b => rfl, by decide, ?_⟩
  intro sender txns recipient amount pinOk recipFound recipSelf cacheOk
    sod som now suffix r h
  unfold transfer at h
  repeat' split at h
  any_goals exact (Except.noConfusion h)
  injection h with h
  subst h
  exact ⟨rfl, rfl⟩

/-- Witness for claim C9's fee-formula part at a concrete committed
transfer. -/
theorem c9_transfer_fee_formula_and_scenario_witness :
    c9TransferRes.fee = transferFee 5000 ∧
    c9TransferRes.fee = max 100 ((5000 + 100) / 200) :=
  c9_transfer_fee_formula_and_scenario.2.2 sampleWallet [] zeroWallet 5000
    true true false true 0 0 7 "TRF1" c9TransferRes rfl

/-- Claim C3, amended.  After any sequence of ledger operations on a freshly
initialized wallet, every transaction with status completed satisfies
`balanceAfter = balanceBefore + netAmount` — except the fee legs (type
`'fee'`, written by transfer and merchant payment with
`balanceAfter = balanceBefore` and `netAmount = -fee`), which are excluded;
in particular the sender-debit and recipient-credit legs of the P2P transfer
satisfy it. -/
theorem c3_completed_transactions_consistent (ops : List Op) (t : Txn)
    (ht : t ∈ (run ops initWState).txns) (hc : t.status = .completed)
    (hf : t.type ≠ "fee") :
    t.balanceAfter = t.balanceBefore + t.netAmount :=
  (run_inv ops initWState inv_init).consistent t ht hc hf

/-- Witness for the amended claim C3: the deposit transaction completed by a
funding round trip satisfies the balance equation. -/
theorem c3_completed_transactions_consistent_witness : (9850 : Int) = 0 + 9850 :=
  c3_completed_transactions_consistent
    [.fundWallet 10000 "d" true 0, .verifyFunding ⟨⟨.vh, "d"⟩, ""⟩ true]
    { reference := ⟨⟨.vh, "d"⟩, ""⟩, type := "deposit", subType := "card"
      amount := 10000, fee := 150, netAmount := 9850
      balanceBefore := 0, balanceAfter := 9850
      status := .completed, createdAt := 0 }
    (by decide) (by decide) (by decide)

/-- Claim C7, counterexample.  A transfer of 5000 that is valid in every
respect, except that the favorite-cache upsert fails, is itself failed: the
error is thrown inside the single `db.transaction`, so the sender debit,
recipient credit and fee legs all roll back and no updated balances are
produced. -/
theorem c7_cache_failure_fails_transfer_counterexample :
    transfer sampleWallet [] zeroWallet 5000 true true false false 0 0 0 "t" =
      .error .internalError :=
  rfl

/-- Claim C7, amended.  The recipient/favorite cache update runs inside the
transfer's atomic unit of work: whenever it fails, the whole transfer fails
and nothing is committed — no input ever yields a committed result with a
failed cache update. -/
theorem c7_cache_update_inside_atomic_boundary
    (sender : Wallet) (txns : List Txn) (recipient : Wallet) (amount : Nat)
    (pinOk recipFound recipSelf : Bool) (sod som now : Nat) (suffix : String) :
    exceptOk (transfer sender txns recipient amount pinOk recipFound recipSelf
      false sod som now suffix) = false := by
  unfold transfer
  repeat' split
  all_goals simp_all [exceptOk]

/-- Claim C10.  The zod `fundWalletSchema` bounds (100..10000000) reject any
out-of-range amount before the handler body, and hence before the Paystack
`initialize` call; consequently every pending funding transaction the
operation creates has its amount in [100, 10000000]. -/
theorem c10_fund_wallet_bounds
    (w : Wallet) (amount : Nat) (gatewayOk : Bool)
    (paymentMethod suffix : String) (now : Nat) :
    ((amount < 100 ∨ 10000000 < amount) →
      fundWallet w amount gatewayOk paymentMethod suffix now =
        ⟨false, none, some .badRequest⟩) ∧
    (∀ t, (fundWallet w amount gatewayOk paymentMethod suffix now).pendingTxn =
        some t → (100 : Int) ≤ t.amount ∧ t.amount ≤ 10000000 ∧
        t.status = .pending) := by
  constructor
  · intro h
    unfold fundWallet
    rw [if_pos (by omega)]
  · intro t ht
    unfold fundWallet at ht
    split at ht
    · simp at ht
    · split at ht
      · simp at ht
      · split at ht
        · simp at ht
        · simp only [Option.some.injEq] at ht
          subst ht
          rename_i hb hover hg
          rw [not_not] at hb
          exact ⟨show (100 : Int) ≤ (amount : Int) by exact_mod_cast hb.1,
            show (amount : Int) ≤ 10000000 by exact_mod_cast hb.2, rfl⟩

/-- Witness for claim C10: amount 50 is rejected with no gateway contact and
no pending row, and amount 99999999 likewise. -/
theorem c10_fund_wallet_bounds_witness :
    fundWallet zeroWallet 50 true "card" "d" 0 =
      ⟨false, none, some .badRequest⟩ ∧
    fundWallet zeroWallet 99999999 true "card" "d" 0 =
      ⟨false, none, some .badRequest⟩ :=
  ⟨(c10_fund_wallet_bounds zeroWallet 50 true "card" "d" 0).1 (by decide),
   (c10_fund_wallet_bounds zeroWallet 99999999 true "card" "d" 0).1 (by decide)⟩

end CairoWallet
